import Mathlib

/-!
Shallow embedding of the pdf viewer front-end control logic
(`src/unnamed/part_000` and `src/view/index.js`): the redraw
scheduler created inside `init_view`, the global controller state
(`view`, listener registrations, pending file reads), and the event
dispatch paths.  Theorems below settle the specification claims.
-/

namespace PdfView

/-! ## Redraw scheduler (one `init_view` invocation)

`init_view` creates a local `requested` flag, a local
`animation_frame(time)` callback (`requested = false; view.animation_frame(time)`)
and a local `check(request_redraw)`
(`if (request_redraw && !requested) { window.requestAnimationFrame(animation_frame); requested = true; }`).
`Sched` records the flag, the number of scheduled-but-not-yet-fired
`requestAnimationFrame` callbacks, and the number of
`view.animation_frame` invocations (render calls). -/

structure Sched where
  requested : Bool
  scheduled : Nat
  renders : Nat
deriving DecidableEq, Repr

def Sched.start : Sched := ⟨false, 0, 0⟩

/-- `check(request_redraw)` from `init_view`: schedule a callback and set
the flag only when a redraw is requested and none is pending. -/
def check (request_redraw : Bool) (s : Sched) : Sched :=
  if request_redraw && !s.requested then
    { s with scheduled := s.scheduled + 1, requested := true }
  else s

def runChecks (l : List Bool) (s : Sched) : Sched :=
  l.foldl (fun s b => check b s) s

/-- First half of the fired `animation_frame` callback: the browser
consumes the scheduled callback and the flag is cleared (`requested = false`). -/
def frame_cb_clear (s : Sched) : Sched :=
  { s with scheduled := s.scheduled - 1, requested := false }

/-- Second half of the fired callback: `view.animation_frame(time)` is
invoked, exactly once. -/
def frame_cb_render (s : Sched) : Sched :=
  { s with renders := s.renders + 1 }

/-- A full firing of the scheduled callback, where the render step itself
issues the `check` calls listed in `l` (redraw requests made during
rendering).  The flag is cleared strictly before the render step runs. -/
def fire_with (l : List Bool) (s : Sched) : Sched :=
  runChecks l (frame_cb_render (frame_cb_clear s))

/-- One interval between two consecutive firings: starting right after a
firing (flag clear, nothing scheduled), the checks in `l` arrive, then the
browser fires the scheduled callback if there is one.  Returns the number
of `view.animation_frame` calls attributable to the interval. -/
def interval_renders (l : List Bool) : Nat :=
  (if 0 < (runChecks l Sched.start).scheduled
   then fire_with [] (runChecks l Sched.start)
   else runChecks l Sched.start).renders

/-- Events driving a single scheduler instance: a `check(b)` call, or the
browser firing the scheduled callback (a no-op when none is scheduled),
with `l` the redraw requests issued during the render step. -/
inductive SEv where
  | chk (b : Bool)
  | fire (l : List Bool)
deriving DecidableEq, Repr

def sstep (s : Sched) (e : SEv) : Sched :=
  match e with
  | .chk b => check b s
  | .fire l => if 0 < s.scheduled then fire_with l s else s

def srun (l : List SEv) (s : Sched) : Sched :=
  l.foldl sstep s

theorem runChecks_requested {l : List Bool} {s : Sched}
    (h : s.requested = true) : runChecks l s = s := by
  induction l with
  | nil => rfl
  | cons b l ih =>
    simp only [runChecks, List.foldl_cons, check, h]
    simp only [Bool.not_true, Bool.and_false, Bool.false_eq_true, if_false]
    exact ih

theorem runChecks_not_requested {l : List Bool} {s : Sched}
    (h : s.requested = false) :
    runChecks l s =
      if l.count true = 0 then s
      else { s with scheduled := s.scheduled + 1, requested := true } := by
  induction l with
  | nil => rfl
  | cons b l ih =>
    cases b with
    | true =>
      have hc : check true s =
          { s with scheduled := s.scheduled + 1, requested := true } := by
        simp [check, h]
      have : runChecks (true :: l) s =
          runChecks l { s with scheduled := s.scheduled + 1, requested := true } := by
        simp only [runChecks, List.foldl_cons, hc]
      rw [this, runChecks_requested rfl]
      simp [List.count_cons]
    | false =>
      have hc : check false s = s := by simp [check]
      have : runChecks (false :: l) s = runChecks l s := by
        simp only [runChecks, List.foldl_cons, hc]
      rw [this, ih]
      simp [List.count_cons]

/-- Scheduler invariant: the number of scheduled-but-not-yet-fired
callbacks is 1 exactly when the `requested` flag is set, else 0. -/
def SchedInv (s : Sched) : Prop :=
  s.scheduled = if s.requested then 1 else 0

theorem sstep_inv {s : Sched} {e : SEv} (h : SchedInv s) :
    SchedInv (sstep s e) := by
  cases e with
  | chk b =>
    cases b with
    | false =>
      simpa [sstep, check] using h
    | true =>
      by_cases hr : s.requested
      · simpa [sstep, check, hr] using h
      · have hr' : s.requested = false := by simpa using hr
        simp only [SchedInv, hr', if_false] at h
        simp [sstep, check, hr', SchedInv, h]
  | fire l =>
    by_cases hs : 0 < s.scheduled
    · have hr : s.requested = true := by
        by_contra hr
        have hr' : s.requested = false := by simpa using hr
        simp [SchedInv, hr'] at h
        omega
      simp only [sstep, hs, if_pos]
      unfold fire_with frame_cb_render frame_cb_clear
      rw [runChecks_not_requested rfl]
      have h1 : s.scheduled = 1 := by simpa [SchedInv, hr] using h
      by_cases hc : l.count true = 0 <;> simp [hc, SchedInv, h1]
    · simpa [sstep, hs] using h

theorem srun_inv {l : List SEv} {s : Sched} (h : SchedInv s) :
    SchedInv (srun l s) := by
  induction l generalizing s with
  | nil => exact h
  | cons e l ih => exact ih (sstep_inv h)

/-! ## Global controller

The page keeps one mutable global `view`.  Each successful `init_view`
reassigns it, pushes one more scheduler generation (its own `requested`
flag) and registers one more set of listeners; listeners are never
removed.  Every listener dereferences the global `view` when it runs.
Sessions are identified by the byte buffer they were created from;
engine behaviour (parse success, needs-redraw results) is a parameter. -/

/-- Engine-side handler kinds exported by the wasm session object. -/
inductive HKind where
  | key_down
  | key_up
  | mouse_move
  | mouse_up
  | mouse_down
  | resize
deriving DecidableEq, Repr

/-- Platform event kinds the page registers listeners for. -/
inductive EKind where
  | keydown
  | keyup
  | mousemove
  | mouseup
  | mousedown
  | resize
deriving DecidableEq, Repr

/-- Listener registration of `src/unnamed/part_000`: each event kind is
wired to the session handler of the same kind. -/
def part000_map : EKind → HKind
  | .keydown => .key_down
  | .keyup => .key_up
  | .mousemove => .mouse_move
  | .mouseup => .mouse_up
  | .mousedown => .mouse_down
  | .resize => .resize

/-- Listener registration of the `src/view/index.js` variant, which wires
`mousedown` to `view.mouse_move`. -/
def indexjs_map : EKind → HKind
  | .keydown => .key_down
  | .keyup => .key_up
  | .mousemove => .mouse_move
  | .mouseup => .mouse_up
  | .mousedown => .mouse_move
  | .resize => .resize

/-- Abstract engine behaviour: whether `wasm_bindgen.show` succeeds on a
buffer, and which handler calls report that a redraw is needed. -/
structure Engine where
  parseOk : List Nat → Bool
  needs : HKind → List Nat → Bool

/-- One call crossing the engine boundary: `view.render()`,
`view.animation_frame(time)`, or a session handler invoked by the
listener of generation `g`.  The session argument records the global
`view` at call time. -/
inductive Call where
  | render (s : List Nat)
  | animFrame (s : Option (List Nat))
  | handler (h : HKind) (s : Option (List Nat)) (g : Nat)
deriving DecidableEq, Repr

/-- The session a call is delivered to. -/
def Call.target : Call → Option (List Nat)
  | .render s => some s
  | .animFrame s => s
  | .handler _ s _ => s

/-- Page state: whether `wasm_bindgen(...)` has resolved, the global
`view`, one `requested` flag per successful `init_view` (index =
registration generation), the pending `FileReader` reads in issue order,
the log of engine calls, whether the error message was displayed, and
whether the drop affordance is visible. -/
structure St where
  bootstrapped : Bool
  view : Option (List Nat)
  scheds : List Bool
  reads : List (List Nat)
  calls : List Call
  errMsg : Bool
  dropVisible : Bool
deriving DecidableEq, Repr

def St.start : St :=
  { bootstrapped := false, view := none, scheds := [], reads := [],
    calls := [], errMsg := false, dropVisible := true }

/-- Number of scheduled-but-not-yet-fired animation frames: one per
generation whose `requested` flag is set. -/
def pendingFrames (s : St) : Nat :=
  s.scheds.count true

/-- Number of successful `init_view` invocations (installed sessions). -/
def numSessions (s : St) : Nat :=
  s.scheds.length

/-- Modelled from the spec: the wasm-bindgen loader glue
(`pkg/pdf_view_bg.wasm` and its generated wrapper) is not under `src/`.
Per the spec, `initialize()` resolves once the engine's exported calls
are safe to invoke, so calling `wasm_bindgen.show` before bootstrap has
resolved fails; after bootstrap it returns a session handle exactly when
the buffer parses. -/
def engine_show (E : Engine) (bootstrapped : Bool) (data : List Nat) :
    Option (List Nat) :=
  if bootstrapped && E.parseOk data then some data else none

/-- `init_view(data)`: `view = wasm_bindgen.show(canvas, data)` — on
failure the exception propagates and nothing below runs (`none`).  On
success the global `view` is reassigned, a fresh `requested` flag is
created, listeners are registered (one more generation) and
`view.render()` is called once. -/
def init_view (E : Engine) (data : List Nat) (s : St) : Option St :=
  match engine_show E s.bootstrapped data with
  | some v =>
      some { s with view := some v,
                    scheds := s.scheds ++ [false],
                    calls := s.calls ++ [Call.render v] }
  | none => none

/-- `show_data(data)`: `try { init_view(data) } catch (e) { display(...) }`.
`display` deletes the drop element's inline display style (leaving it
visible) and shows the message. -/
def show_data (E : Engine) (data : List Nat) (s : St) : St :=
  match init_view E data s with
  | some s' => s'
  | none => { s with errMsg := true, dropVisible := true }

/-- Needs-redraw result the listener obtains from the current `view`. -/
def listenerNeeds (E : Engine) (h : HKind) (s : St) : Bool :=
  match s.view with
  | some v => E.needs h v
  | none => false

/-- One registered listener of generation `g` handling one event: it
calls the handler on the current global `view` and feeds the result to
its own `check` (schedule only if its own flag is clear). -/
def listener (E : Engine) (h : HKind) (g : Nat) (s : St) : St :=
  let s1 := { s with calls := s.calls ++ [Call.handler h s.view g] }
  if listenerNeeds E h s && !(s.scheds.getD g false) then
    { s1 with scheds := s1.scheds.set g true }
  else s1

/-- Dispatch of one platform event: every registered listener generation
runs, in registration order. -/
def dispatch (E : Engine) (h : HKind) (s : St) : St :=
  (List.range s.scheds.length).foldl (fun s g => listener E h g s) s

/-- The fired `requestAnimationFrame` callback of generation `g` (only
runs if that generation actually has a frame scheduled): clears its own
flag and calls `view.animation_frame` on the current global `view`. -/
def fireRaf (g : Nat) (s : St) : St :=
  if s.scheds.getD g false then
    { s with scheds := s.scheds.set g false,
             calls := s.calls ++ [Call.animFrame s.view] }
  else s

/-- External events driving the page. -/
inductive Ev where
  | bootstrap
  | drop (files : List (List Nat))
  | pick (files : List (List Nat))
  | readDone (i : Nat)
  | input (k : EKind)
  | raf (g : Nat)
  | logoFetched (ok : Bool) (data : List Nat)
deriving DecidableEq, Repr

/-- One step of the page.  `drop` / `pick` start a `FileReader` on
`files[0]` only; `readDone i` completes the `i`-th pending read and runs
`show_data`; `logoFetched` is the default-document fetch completing
(only started after bootstrap; a rejected fetch runs nothing). -/
def step (E : Engine) (m : EKind → HKind) (s : St) (ev : Ev) : St :=
  match ev with
  | .bootstrap => { s with bootstrapped := true }
  | .drop files =>
      match files.head? with
      | some f => { s with reads := s.reads ++ [f] }
      | none => s
  | .pick files =>
      match files.head? with
      | some f => { s with reads := s.reads ++ [f] }
      | none => s
  | .readDone i =>
      match s.reads[i]? with
      | some data => show_data E data { s with reads := s.reads.eraseIdx i }
      | none => s
  | .input k => dispatch E (m k) s
  | .raf g => fireRaf g s
  | .logoFetched ok data =>
      if s.bootstrapped && ok then show_data E data s else s

def run (E : Engine) (m : EKind → HKind) (l : List Ev) (s : St) : St :=
  l.foldl (step E m) s

/-- Engine that accepts every buffer and always wants a redraw. -/
def allOk : Engine :=
  { parseOk := fun _ => true, needs := fun _ _ => true }

/-- Engine that rejects the buffer `[0]` and accepts everything else. -/
def demoEngine : Engine :=
  { parseOk := fun data => data != [0], needs := fun _ _ => true }

/-- Concrete state with one installed session `[1]`, used as a witness
input. -/
def demoSt : St :=
  run demoEngine part000_map [Ev.bootstrap, Ev.drop [[1]], Ev.readDone 0]
    St.start

/-- Concrete one-session state built with the accept-all engine, used as
a witness input. -/
def oneSessionSt : St :=
  run allOk part000_map [Ev.bootstrap, Ev.drop [[1]], Ev.readDone 0]
    St.start

/-! ## Helper lemmas -/

theorem listener_view (E : Engine) (h : HKind) (g : Nat) (s : St) :
    (listener E h g s).view = s.view := by
  unfold listener
  split <;> rfl

theorem listener_calls (E : Engine) (h : HKind) (g : Nat) (s : St) :
    (listener E h g s).calls = s.calls ++ [Call.handler h s.view g] := by
  unfold listener
  split <;> rfl

theorem listener_scheds_length (E : Engine) (h : HKind) (g : Nat) (s : St) :
    (listener E h g s).scheds.length = s.scheds.length := by
  unfold listener
  split
  · exact List.length_set ..
  · rfl

theorem foldl_listener_view (E : Engine) (h : HKind) (gs : List Nat) (s : St) :
    (gs.foldl (fun s g => listener E h g s) s).view = s.view := by
  induction gs generalizing s with
  | nil => rfl
  | cons g gs ih =>
    simp only [List.foldl_cons]
    rw [ih, listener_view]

theorem foldl_listener_calls (E : Engine) (h : HKind) (gs : List Nat) (s : St) :
    (gs.foldl (fun s g => listener E h g s) s).calls
      = s.calls ++ gs.map (fun g => Call.handler h s.view g) := by
  induction gs generalizing s with
  | nil => simp
  | cons g gs ih =>
    simp only [List.foldl_cons, List.map_cons]
    rw [ih, listener_calls, listener_view]
    simp

theorem foldl_listener_scheds_length (E : Engine) (h : HKind) (gs : List Nat)
    (s : St) :
    (gs.foldl (fun s g => listener E h g s) s).scheds.length
      = s.scheds.length := by
  induction gs generalizing s with
  | nil => rfl
  | cons g gs ih =>
    simp only [List.foldl_cons]
    rw [ih, listener_scheds_length]

theorem dispatch_view (E : Engine) (h : HKind) (s : St) :
    (dispatch E h s).view = s.view :=
  foldl_listener_view ..

theorem dispatch_calls (E : Engine) (h : HKind) (s : St) :
    (dispatch E h s).calls
      = s.calls ++ (List.range s.scheds.length).map
          (fun g => Call.handler h s.view g) :=
  foldl_listener_calls ..

/-- State predicate holding before bootstrap has resolved: no session, no
listener generation, no engine call has ever been made. -/
def PreBoot (s : St) : Prop :=
  s.bootstrapped = false ∧ s.view = none ∧ s.scheds = [] ∧ s.calls = []

theorem step_preBoot {E : Engine} {m : EKind → HKind} {s : St} {ev : Ev}
    (h : PreBoot s) (hev : ev ≠ Ev.bootstrap) : PreBoot (step E m s ev) := by
  obtain ⟨hb, hv, hs, hc⟩ := h
  cases ev with
  | bootstrap => exact absurd rfl hev
  | drop files =>
    cases files with
    | nil => exact ⟨hb, hv, hs, hc⟩
    | cons f r => exact ⟨hb, hv, hs, hc⟩
  | pick files =>
    cases files with
    | nil => exact ⟨hb, hv, hs, hc⟩
    | cons f r => exact ⟨hb, hv, hs, hc⟩
  | readDone i =>
    cases hr : s.reads[i]? with
    | none => simp only [step, hr]; exact ⟨hb, hv, hs, hc⟩
    | some data =>
      simp [step, hr, show_data, init_view, engine_show, PreBoot, hb, hv,
        hs, hc]
  | input k =>
    show PreBoot (dispatch E (m k) s)
    unfold dispatch
    rw [hs]
    exact ⟨hb, hv, hs, hc⟩
  | raf g =>
    show PreBoot (fireRaf g s)
    unfold fireRaf
    rw [hs]
    simp only [List.getD_nil, if_false]
    exact ⟨hb, hv, hs, hc⟩
  | logoFetched ok data =>
    simp only [step, hb, Bool.false_and, if_false]
    exact ⟨hb, hv, hs, hc⟩

theorem run_preBoot {E : Engine} {m : EKind → HKind} {l : List Ev} {s : St}
    (h : PreBoot s) (hl : Ev.bootstrap ∉ l) : PreBoot (run E m l s) := by
  induction l generalizing s with
  | nil => exact h
  | cons ev l ih =>
    have hev : ev ≠ Ev.bootstrap := fun he => hl (he ▸ List.mem_cons_self ..)
    have hl' : Ev.bootstrap ∉ l := fun hm => hl (List.mem_cons_of_mem _ hm)
    exact ih (step_preBoot h hev) hl'

/-! ## Claims -/

/-- C1: for any sequence of `check` calls with `k ≥ 0` true needs-redraw
results arriving strictly between two consecutive firings of the
scheduled animation-frame callback, exactly `min 1 k` invocations of
`view.animation_frame` occur for that interval — no duplicate, no
loss. -/
theorem C1_redraw_coalescing (l : List Bool) :
    interval_renders l = min 1 (l.count true) := by
  unfold interval_renders
  rw [runChecks_not_requested rfl]
  by_cases hc : l.count true = 0
  · simp [hc, Sched.start]
  · have h1 : 1 ≤ l.count true := Nat.one_le_iff_ne_zero.mpr hc
    simp only [hc, if_false]
    rw [Nat.min_eq_left h1]
    simp [Sched.start, fire_with, runChecks, frame_cb_render, frame_cb_clear]

/-- C5: when the scheduled frame callback fires, the pending flag is
cleared before the render step is invoked, and the render step runs
exactly once per firing; a redraw request issued during the render step
therefore schedules a fresh frame (flag set, one callback scheduled)
instead of being dropped, while a firing with no in-render request
leaves nothing scheduled. -/
theorem C5_clear_before_render (s : Sched) (l : List Bool)
    (_hreq : s.requested = true) (hsch : s.scheduled = 1) :
    (frame_cb_clear s).requested = false ∧
    (fire_with l s).renders = s.renders + 1 ∧
    (0 < l.count true →
      (fire_with l s).requested = true ∧ (fire_with l s).scheduled = 1) ∧
    (l.count true = 0 →
      (fire_with l s).requested = false ∧ (fire_with l s).scheduled = 0) := by
  have hfw : fire_with l s =
      if l.count true = 0
      then { requested := false, scheduled := 0, renders := s.renders + 1 }
      else { requested := true, scheduled := 1, renders := s.renders + 1 } := by
    unfold fire_with frame_cb_render frame_cb_clear
    rw [runChecks_not_requested rfl]
    by_cases hc : l.count true = 0 <;> simp [hc, hsch]
  refine ⟨rfl, ?_, ?_, ?_⟩
  · rw [hfw]
    by_cases hc : l.count true = 0 <;> simp [hc]
  · intro hpos
    have hc : ¬ l.count true = 0 := by omega
    rw [hfw]
    simp [hc]
  · intro hc
    rw [hfw]
    simp [hc]

/-- C5 witness: the theorem applied at the concrete state with one
pending frame and one redraw request issued during rendering. -/
theorem C5_clear_before_render_witness :
    (frame_cb_clear ⟨true, 1, 5⟩).requested = false ∧
    (fire_with [true] ⟨true, 1, 5⟩).renders = (5 : Nat) + 1 ∧
    (0 < [true].count true →
      (fire_with [true] ⟨true, 1, 5⟩).requested = true ∧
      (fire_with [true] ⟨true, 1, 5⟩).scheduled = 1) ∧
    ([true].count true = 0 →
      (fire_with [true] ⟨true, 1, 5⟩).requested = false ∧
      (fire_with [true] ⟨true, 1, 5⟩).scheduled = 0) :=
  C5_clear_before_render ⟨true, 1, 5⟩ [true] rfl rfl

/-- C2 (code bug): the code carries no LoadRequestId, so last-write-wins
fails.  Dropping file `[1]` (load A) then file `[2]` (load B), with B's
`FileReader` completing before A's, installs A's session last: the final
`view` reflects A, not B as the claim requires. -/
theorem C2_stale_load_installs_last_completion :
    (run allOk part000_map
        [.bootstrap, .drop [[1]], .drop [[2]], .readDone 1, .readDone 0]
        St.start).view = some [1] ∧
    (run allOk part000_map
        [.bootstrap, .drop [[1]], .drop [[2]], .readDone 1, .readDone 0]
        St.start).view ≠ some [2] :=
  ⟨rfl, by decide⟩

/-- C3 counterexample: after loading `[1]` and then `[2]`, a key event is
still handled by the listener generation registered during the first
install (generation 0 appears in the log after `render [2]`): installing
the new session does not detach the old session's event routing. -/
theorem C3_old_routing_not_detached :
    (run allOk part000_map
        [.bootstrap, .drop [[1]], .readDone 0, .drop [[2]], .readDone 0,
         .input .keydown] St.start).calls
      = [Call.render [1], Call.render [2],
         Call.handler .key_down (some [2]) 0,
         Call.handler .key_down (some [2]) 1] ∧
    Call.handler .key_down (some [2]) 0 ∈
      (run allOk part000_map
        [.bootstrap, .drop [[1]], .readDone 0, .drop [[2]], .readDone 0,
         .input .keydown] St.start).calls :=
  ⟨rfl, by decide⟩

/-- C3 (amended): every engine call appended by a step targets the
session current at that step (all listeners dereference the shared
global `view`), so no call is ever delivered to a previously replaced
session — but old listener generations are never detached and keep
firing at the current session. -/
theorem C3_calls_target_current_session (E : Engine) (m : EKind → HKind)
    (s : St) (ev : Ev) (c : Call) (hc : c ∈ (step E m s ev).calls) :
    c ∈ s.calls ∨ c.target = (step E m s ev).view := by
  cases ev with
  | bootstrap => exact Or.inl hc
  | drop files =>
    cases files with
    | nil => exact Or.inl hc
    | cons f r => exact Or.inl hc
  | pick files =>
    cases files with
    | nil => exact Or.inl hc
    | cons f r => exact Or.inl hc
  | readDone i =>
    cases hr : s.reads[i]? with
    | none =>
      simp only [step, hr] at hc
      exact Or.inl hc
    | some data =>
      simp only [step, hr, show_data, init_view] at hc ⊢
      cases he : engine_show E s.bootstrapped data with
      | none =>
        simp only [he] at hc
        exact Or.inl hc
      | some v =>
        simp only [he] at hc ⊢
        rcases List.mem_append.mp hc with h | h
        · exact Or.inl h
        · have hcv : c = Call.render v := by simpa using h
          subst hcv
          exact Or.inr rfl
  | input k =>
    have hc' : c ∈ (dispatch E (m k) s).calls := hc
    rw [dispatch_calls] at hc'
    rcases List.mem_append.mp hc' with h | h
    · exact Or.inl h
    · right
      rcases List.mem_map.mp h with ⟨g, _, hg⟩
      rw [← hg]
      show s.view = (dispatch E (m k) s).view
      rw [dispatch_view]
  | raf g =>
    by_cases hb : s.scheds.getD g false = true
    · simp only [step, fireRaf, hb, if_true] at hc ⊢
      rcases List.mem_append.mp hc with h | h
      · exact Or.inl h
      · have hcv : c = Call.animFrame s.view := by simpa using h
        subst hcv
        exact Or.inr rfl
    · simp only [step, fireRaf, hb, if_false] at hc
      exact Or.inl hc
  | logoFetched ok data =>
    by_cases hb : (s.bootstrapped && ok) = true
    · simp only [step, hb, if_true, show_data, init_view] at hc ⊢
      cases he : engine_show E s.bootstrapped data with
      | none =>
        simp only [he] at hc
        exact Or.inl hc
      | some v =>
        simp only [he] at hc ⊢
        rcases List.mem_append.mp hc with h | h
        · exact Or.inl h
        · have hcv : c = Call.render v := by simpa using h
          subst hcv
          exact Or.inr rfl
    · simp only [step, hb, if_false] at hc
      exact Or.inl hc

/-- C3 witness: the amended theorem applied at a concrete one-session
state and a concrete key event. -/
theorem C3_calls_target_current_session_witness :
    Call.handler .key_down (some [1]) 0 ∈ oneSessionSt.calls ∨
    (Call.handler .key_down (some [1]) 0).target
      = (step allOk part000_map oneSessionSt (Ev.input .keydown)).view :=
  C3_calls_target_current_session allOk part000_map oneSessionSt
    (Ev.input .keydown) (Call.handler .key_down (some [1]) 0) (by decide)

/-- C4 counterexample: after two successful loads a single key event is
checked once per listener generation, each with its own `requested`
flag, so two animation frames end up scheduled and not yet fired —
the claimed global at-most-one bound fails after multiple loads. -/
theorem C4_two_pending_frames :
    pendingFrames
      (run allOk part000_map
        [.bootstrap, .drop [[1]], .readDone 0, .drop [[2]], .readDone 0,
         .input .keydown] St.start) = 2 :=
  rfl

/-- C4 (amended): each `init_view` owns its own pending flag, so the
number of scheduled-but-not-yet-fired frames is bounded by the number of
installed sessions, not by one; for a single scheduler instance (at most
one successful load) every reachable state has at most one pending
frame. -/
theorem C4_pending_frames_bound :
    (∀ (E : Engine) (m : EKind → HKind) (l : List Ev),
        pendingFrames (run E m l St.start)
          ≤ numSessions (run E m l St.start)) ∧
    (∀ l : List SEv, (srun l Sched.start).scheduled ≤ 1) := by
  constructor
  · intro E m l
    exact List.count_le_length ..
  · intro l
    have h : SchedInv (srun l Sched.start) := srun_inv rfl
    unfold SchedInv at h
    rw [h]
    split <;> omega

/-- C6 counterexample: a drop event arriving before bootstrap, whose
file read completes after bootstrap has resolved, reaches the engine
(the buffer is parsed and rendered) — pre-bootstrap drop events are not
uniformly dropped, and key/pointer events (which are always dropped) are
handled by a different policy. -/
theorem C6_prebootstrap_drop_reaches_engine :
    (run allOk part000_map [.drop [[1]], .bootstrap, .readDone 0]
        St.start).calls = [Call.render [1]] ∧
    (run allOk part000_map [.drop [[1]], .bootstrap, .readDone 0]
        St.start).view = some [1] :=
  ⟨rfl, rfl⟩

/-- C6 (amended): no engine call occurs before bootstrap has resolved —
before the bootstrap event the call log is empty and no session exists
(key, pointer and resize events have no listeners and are dropped) — and
a drop whose file read also completes before bootstrap is dropped with
an error message; but a pre-bootstrap drop whose read completes after
bootstrap does proceed to the engine, so there is no single policy. -/
theorem C6_bootstrap_barrier (E : Engine) (m : EKind → HKind)
    (l : List Ev) (hl : Ev.bootstrap ∉ l) :
    (run E m l St.start).calls = [] ∧
    (run E m l St.start).view = none ∧
    (run allOk part000_map [.drop [[1]], .readDone 0] St.start).calls
      = [] ∧
    (run allOk part000_map [.drop [[1]], .readDone 0] St.start).errMsg
      = true := by
  have h : PreBoot (run E m l St.start) :=
    run_preBoot ⟨rfl, rfl, rfl, rfl⟩ hl
  exact ⟨h.2.2.2, h.2.1, rfl, rfl⟩

/-- C6 witness: the amended theorem applied to a concrete pre-bootstrap
trace containing an input event, a drop and its read completion. -/
theorem C6_bootstrap_barrier_witness :
    (run allOk part000_map [.input .keydown, .drop [[7]], .readDone 0]
        St.start).calls = [] ∧
    (run allOk part000_map [.input .keydown, .drop [[7]], .readDone 0]
        St.start).view = none ∧
    (run allOk part000_map [.drop [[1]], .readDone 0] St.start).calls
      = [] ∧
    (run allOk part000_map [.drop [[1]], .readDone 0] St.start).errMsg
      = true :=
  C6_bootstrap_barrier allOk part000_map
    [.input .keydown, .drop [[7]], .readDone 0] (by decide)

/-- C7: a buffer on which `wasm_bindgen.show` fails leaves `show_data`
displaying an error while the previously installed session, its listener
generations and the call log are unchanged; the next input event is
still delivered (once per generation) to the old session, and a
subsequent well-formed buffer still installs a new session. -/
theorem C7_parse_error_atomicity (E : Engine) (m : EKind → HKind)
    (s : St) (v bad good : List Nat) (k : EKind)
    (hboot : s.bootstrapped = true) (hview : s.view = some v)
    (hbad : E.parseOk bad = false) (hgood : E.parseOk good = true) :
    (show_data E bad s).view = some v ∧
    (show_data E bad s).scheds = s.scheds ∧
    (show_data E bad s).calls = s.calls ∧
    (show_data E bad s).errMsg = true ∧
    (dispatch E (m k) (show_data E bad s)).calls
      = s.calls ++ (List.range s.scheds.length).map
          (fun g => Call.handler (m k) (some v) g) ∧
    (show_data E good (show_data E bad s)).view = some good := by
  have hsd : show_data E bad s = { s with errMsg := true, dropVisible := true } := by
    unfold show_data init_view engine_show
    rw [hboot, hbad]
    rfl
  refine ⟨?_, ?_, ?_, ?_, ?_, ?_⟩
  · rw [hsd]
    exact hview
  · rw [hsd]
  · rw [hsd]
  · rw [hsd]
  · rw [hsd, dispatch_calls]
    dsimp only
    rw [hview]
  · rw [hsd]
    unfold show_data init_view engine_show
    dsimp only
    rw [hboot, hgood]
    rfl

/-- C7 witness: the theorem applied at the concrete one-session state
`demoSt` (session `[1]`), malformed buffer `[0]`, well-formed buffer
`[2]` and a key event. -/
theorem C7_parse_error_atomicity_witness :
    (show_data demoEngine [0] demoSt).view = some [1] ∧
    (show_data demoEngine [0] demoSt).scheds = demoSt.scheds ∧
    (show_data demoEngine [0] demoSt).calls = demoSt.calls ∧
    (show_data demoEngine [0] demoSt).errMsg = true ∧
    (dispatch demoEngine (part000_map .keydown)
        (show_data demoEngine [0] demoSt)).calls
      = demoSt.calls ++ (List.range demoSt.scheds.length).map
          (fun g => Call.handler (part000_map .keydown) (some [1]) g) ∧
    (show_data demoEngine [2] (show_data demoEngine [0] demoSt)).view
      = some [2] :=
  C7_parse_error_atomicity demoEngine part000_map demoSt [1] [0] [2]
    .keydown (by decide) (by decide) (by decide) (by decide)

/-- C8 (code bug): in the `src/view/index.js` variant the `mousedown`
listener invokes `view.mouse_move`, so a pointer-press event is
delivered to the pointer-move handler, while the `part_000` variant
delivers it to `mouse_down` as the claim states. -/
theorem C8_mousedown_mapped_to_mouse_move :
    (run allOk indexjs_map
        [.bootstrap, .drop [[1]], .readDone 0, .input .mousedown]
        St.start).calls
      = [Call.render [1], Call.handler .mouse_move (some [1]) 0] ∧
    (run allOk part000_map
        [.bootstrap, .drop [[1]], .readDone 0, .input .mousedown]
        St.start).calls
      = [Call.render [1], Call.handler .mouse_down (some [1]) 0] ∧
    indexjs_map .mousedown ≠ HKind.mouse_down :=
  ⟨rfl, rfl, by decide⟩

/-- C9: if bootstrap resolves and the default-document fetch succeeds on
a parsable buffer, exactly one render call occurs with no user
interaction; if the fetch fails, no engine call occurs and the drop
affordance remains visible. -/
theorem C9_default_load (E : Engine) (m : EKind → HKind)
    (data : List Nat) (h : E.parseOk data = true) :
    (run E m [.bootstrap, .logoFetched true data] St.start).calls
      = [Call.render data] ∧
    (run E m [.bootstrap, .logoFetched false data] St.start).calls
      = [] ∧
    (run E m [.bootstrap, .logoFetched false data] St.start).dropVisible
      = true := by
  refine ⟨?_, rfl, rfl⟩
  simp [run, step, show_data, init_view, engine_show, St.start, h]

/-- C9 witness: the theorem applied with the accept-all engine and the
buffer `[5]`. -/
theorem C9_default_load_witness :
    (run allOk part000_map [.bootstrap, .logoFetched true [5]]
        St.start).calls = [Call.render [5]] ∧
    (run allOk part000_map [.bootstrap, .logoFetched false [5]]
        St.start).calls = [] ∧
    (run allOk part000_map [.bootstrap, .logoFetched false [5]]
        St.start).dropVisible = true :=
  C9_default_load allOk part000_map [5] (by decide)

/-- C10: a drop event and a file-picker selection read exactly the first
file of the payload and hand it to the load path; files beyond the first
are ignored. -/
theorem C10_first_file_only (E : Engine) (m : EKind → HKind) (s : St)
    (f : List Nat) (rest : List (List Nat)) :
    step E m s (Ev.drop (f :: rest)) = { s with reads := s.reads ++ [f] } ∧
    step E m s (Ev.pick (f :: rest)) = { s with reads := s.reads ++ [f] } ∧
    step E m s (Ev.drop (f :: rest)) = step E m s (Ev.drop [f]) ∧
    step E m s (Ev.pick (f :: rest)) = step E m s (Ev.pick [f]) :=
  ⟨rfl, rfl, rfl, rfl⟩

end PdfView


